import Mathlib

/-!
Shallow embedding of the `wpool` worker-pool package (kitex):
the synthetic task context (`newTaskContext`, `Deadline`, `Err`, `Cancel`),
the task lifecycle (`newTask`, `Run`, `Wait`, `waitNoTimeout`) and the pool
worker-creation path (`createWorker`, `RunTask`).

Modelling conventions:
- Go `time.Time` is an `Int` instant; the zero `time.Time` is `0`
  (`IsZero` is `= 0`, `Before` is `<`, `time.Until dl` at instant `now`
  is `dl - now`).
- A Go `error` interface value is `Option GoErr`: `none` is the nil error.
- The atomic slot `task.err` (an `atomic.Value`) is `Option (Option GoErr)`:
  the outer `none` is the never-stored (empty) slot, an inner value is what
  was passed to `Store`.
- Channels are modelled by their observable state: `chClosed : Bool` for the
  task context channel; select nondeterminism in `Wait` is resolved by an
  explicit `WaitBranch` parameter, with enabledness as theorem hypotheses.
- The parent context is modelled by the data `Wait`/`Err` read from it: its
  deadline (`Option Int`) at construction and its current `Err()` value.
- `req`, `resp`, `ep`, the `sync.WaitGroup` latch and the `sync.Pool` free
  lists carry no information relevant to the claims and are omitted from the
  state; the endpoint call is modelled by its outcome `EpOutcome`.
-/

namespace WPool

/-- Non-nil Go error values that occur in the `wpool` package:
the stdlib sentinels, the internal `errTaskDone` sentinel, opaque endpoint
errors (tagged by a number), and the two panic-conversion errors of
`task.Run` (carrying the panic value). -/
inductive GoErr where
  | canceled
  | deadlineExceeded
  | taskDone
  | epErr (n : Nat)
  | clientPanicErr (v : String)
  | panicNoInfoErr (v : String)
deriving DecidableEq

/-- The fragments spliced into the message of each error
(`Error()` in Go); the panic errors interpolate the panic value into a
format string, so the value appears as one of the fragments. -/
def errMessageParts : GoErr → List String
  | .canceled => ["context canceled"]
  | .deadlineExceeded => ["context deadline exceeded"]
  | .taskDone => ["task done"]
  | .epErr n => ["endpoint error ", toString n]
  | .clientPanicErr v => ["KITEX: client panic, error=", v, "\nstack=", "<stack>"]
  | .panicNoInfoErr v => ["KITEX: panic without rpcinfo, error=", v, "\nstack=", "<stack>"]

/-- State of a `taskContext`: the effective deadline `dl`
(`0` = Go zero time = none), whether `ch` has been closed, and the recorded
error `err` (guarded by `mu` in Go; calls are sequentialised here). -/
structure TCState where
  dl : Int
  chClosed : Bool
  err : Option GoErr
deriving DecidableEq

/-- `newTaskContext(ctx, timeout)` evaluated at instant `now`, where
`parentDl` is what `ctx.Deadline()` returned (`none` when `ok` was false):
start from the zero deadline, overwrite with the parent deadline when
present, then when `timeout != 0` take `now + timeout` if the current
deadline is zero or the new one is earlier. -/
def newTaskContext (parentDl : Option Int) (now timeout : Int) : TCState :=
  let dl0 : Int := match parentDl with
    | some deadline => deadline
    | none => 0
  let dl1 : Int :=
    if timeout ≠ 0 then
      let dl := now + timeout
      if dl0 = 0 ∨ dl < dl0 then dl else dl0
    else dl0
  { dl := dl1, chClosed := false, err := none }

/-- `taskContext.Deadline`: returns the stored deadline and
`!p.dl.IsZero()`. -/
def tcDeadline (p : TCState) : Int × Bool :=
  (p.dl, p.dl ≠ 0)

/-- `taskContext.Err`, with `parentErr` the value `p.Context.Err()`
returns at this moment: the recorded error unless it is nil or the
`errTaskDone` sentinel, in which case the parent error. -/
def tcErr (p : TCState) (parentErr : Option GoErr) : Option GoErr :=
  if p.err = none ∨ p.err = some .taskDone then parentErr else p.err

/-- `taskContext.Cancel(err)`: under the mutex, when `err != nil` and no
error is recorded yet, record it and close `ch`; otherwise do nothing. -/
def tcCancel (p : TCState) (e : Option GoErr) : TCState :=
  if e ≠ none ∧ p.err = none then { p with err := e, chClosed := true } else p

/-- `taskContext.Cancel` instrumented with the number of `close(p.ch)`
calls the invocation performs (`0` or `1`). -/
def tcCancelCount (p : TCState) (e : Option GoErr) : TCState × Nat :=
  if e ≠ none ∧ p.err = none then ({ p with err := e, chClosed := true }, 1) else (p, 0)

/-- A sequence of `Cancel` calls, returning the final context state and the
total number of times `ch` was closed. -/
def runCancels (p : TCState) : List (Option GoErr) → TCState × Nat
  | [] => (p, 0)
  | e :: es =>
    let r1 := tcCancelCount p e
    let r2 := runCancels r1.1 es
    (r2.1, r1.2 + r2.2)

/-- The first non-nil error in a sequence of `Cancel` arguments
(specification-side helper for stating first-writer-wins). -/
def firstSome : List (Option GoErr) → Option GoErr
  | [] => none
  | none :: es => firstSome es
  | some e :: _ => some e

/-- State of a `task` relevant to the claims: its context and the
`atomic.Value` error slot (`none` = never stored). -/
structure TaskState where
  tc : TCState
  errSlot : Option (Option GoErr)
deriving DecidableEq

/-- `newTask(ctx, timeout, req, resp, ep)` at instant `now`: a fresh
`taskContext` (never reused) and a reset error slot (`t.err =
atomic.Value{}`). -/
def newTask (parentDl : Option Int) (now timeout : Int) : TaskState :=
  { tc := newTaskContext parentDl now timeout, errSlot := none }

/-- Outcome of the endpoint call `t.ep(t.ctx, t.req, t.resp)`: it returned
(a possibly nil error) or panicked with a value. -/
inductive EpOutcome where
  | ret (e : Option GoErr)
  | panics (v : String)
deriving DecidableEq

/-- The error that the deferred recover of `task.Run` builds from a panic value:
`rpcinfo.ClientPanicToErr` when RPC metadata is attached to the context,
else the generic `fmt.Errorf` error. Both carry the panic value. -/
def panicToErr (hasRPCInfo : Bool) (v : String) : GoErr :=
  if hasRPCInfo then .clientPanicErr v else .panicNoInfoErr v

/-- The stores `task.Run` performs on the error slot: on a non-nil endpoint
return, `t.err.Store(err)`; on a nil return, nothing; on a panic, store the
converted panic error. -/
def runStore (s : TaskState) (out : EpOutcome) (hasRPCInfo : Bool) : TaskState :=
  match out with
  | .ret e => if e ≠ none then { s with errSlot := some e } else s
  | .panics v => { s with errSlot := some (some (panicToErr hasRPCInfo v)) }

/-- `task.Run`: perform the endpoint call `out`, store into the error slot
as `runStore`, then (deferred) `t.Cancel(errTaskDone)`. The recycle step
touches no claim-relevant state. -/
def runTask (s : TaskState) (out : EpOutcome) (hasRPCInfo : Bool) : TaskState :=
  let s1 := runStore s out hasRPCInfo
  { s1 with tc := tcCancel s1.tc (some .taskDone) }

/-- Which branch of the select in `Wait`/`waitNoTimeout` fires. -/
inductive WaitBranch where
  | ctxDone
  | parentDone
  | timerFired
deriving DecidableEq

/-- The effect of the fired select branch: `<-t.ctx.Done()` does nothing,
`<-t.ctx.Context.Done()` cancels with the parent error, `<-tm.C` cancels
with `context.DeadlineExceeded`. -/
def selectWait (s : TaskState) (parentErr : Option GoErr) (br : WaitBranch) : TaskState :=
  match br with
  | .ctxDone => s
  | .parentDone => { s with tc := tcCancel s.tc parentErr }
  | .timerFired => { s with tc := tcCancel s.tc (some .deadlineExceeded) }

/-- The common tail of `Wait` and `waitNoTimeout`: load the error slot; a
loaded value is downcast and returned, otherwise return `t.ctx.Err()`. -/
def waitTail (s : TaskState) (parentErr : Option GoErr) : TaskState × Option GoErr :=
  match s.errSlot with
  | some v => (s, v)
  | none => (s, tcErr s.tc parentErr)

/-- `task.Wait` at instant `now`, with `parentErr` the current `Err()` of
the parent context and `br` the select branch that fires (when a select is
reached): when `Deadline()` reports none, `waitNoTimeout` (a two-way
select, then the tail); when the remaining time `dl - now` is negative,
`Cancel(DeadlineExceeded)` and return `t.ctx.Err()` directly; otherwise
arm the timer, select three ways, then the tail. -/
def taskWait (s : TaskState) (now : Int) (parentErr : Option GoErr) (br : WaitBranch) :
    TaskState × Option GoErr :=
  if (tcDeadline s.tc).2 = false then
    waitTail (selectWait s parentErr br) parentErr
  else if (tcDeadline s.tc).1 - now < 0 then
    let s1 := { s with tc := tcCancel s.tc (some .deadlineExceeded) }
    (s1, tcErr s1.tc parentErr)
  else
    waitTail (selectWait s parentErr br) parentErr

/-- Amended description (spec side) of how `Wait` chooses the error it
returns: on the fast path — a deadline exists and has already passed on
entry — return the filtered context error after `Cancel(DeadlineExceeded)`,
without consulting the error slot; on the select paths, a non-empty error
slot wins and an empty one falls back to the filtered context error. -/
def waitErrSpec (s : TaskState) (now : Int) (parentErr : Option GoErr) (br : WaitBranch) :
    Option GoErr :=
  if (tcDeadline s.tc).2 = true ∧ (tcDeadline s.tc).1 - now < 0 then
    tcErr (tcCancel s.tc (some .deadlineExceeded)) parentErr
  else
    match s.errSlot with
    | some v => v
    | none => tcErr (selectWait s parentErr br).tc parentErr

/-- Pool state relevant to the claims: the atomic worker counter and the
configured cap. -/
structure PoolState where
  size : Int
  maxIdle : Int
deriving DecidableEq

/-- Observable side effects of `Pool.createWorker`, in program order. -/
inductive PoolEvent where
  | incSize
  | decSize
  | startTicker
  | spawnWorker
deriving DecidableEq

/-- `Pool.createWorker`: `n := atomic.AddInt32(&p.size, 1)`; if
`n < p.maxIdle`, start the reaper ticker when `n == 1`, then spawn the
worker goroutine and return true; otherwise undo the increment and return
false. The returned list records the side effects in order. -/
def createWorker (p : PoolState) : PoolState × Bool × List PoolEvent :=
  let n := p.size + 1
  if n < p.maxIdle then
    ({ p with size := n }, true,
      [PoolEvent.incSize] ++ (if n = 1 then [PoolEvent.startTicker] else []) ++
        [PoolEvent.spawnWorker])
  else
    (p, false, [PoolEvent.incSize, PoolEvent.decSize])

/-- How `Pool.RunTask` dispatched a submission. -/
inductive Dispatch where
  | handedOff
  | workerSpawned
  | detached
deriving DecidableEq

/-- The dispatch decision of `Pool.RunTask`: the non-blocking send on
`p.tasks` succeeds exactly when an idle worker is ready to receive;
otherwise `createWorker`, and when that fails, `go t.Run()` detached. -/
def runTaskDispatch (p : PoolState) (idleWorkerReady : Bool) : PoolState × Dispatch :=
  if idleWorkerReady then (p, Dispatch.handedOff)
  else
    let r := createWorker p
    if r.2.1 then (r.1, Dispatch.workerSpawned) else (r.1, Dispatch.detached)

/-! Helper lemmas shared across the claim theorems. -/

/-- A freshly built task context has no recorded error. -/
theorem newTaskContext_err (parentDl : Option Int) (now timeout : Int) :
    (newTaskContext parentDl now timeout).err = none := rfl

/-- A freshly built task context has an open channel. -/
theorem newTaskContext_chClosed (parentDl : Option Int) (now timeout : Int) :
    (newTaskContext parentDl now timeout).chClosed = false := rfl

/-- `selectWait` never touches the error slot. -/
theorem selectWait_errSlot (s : TaskState) (pe : Option GoErr) (br : WaitBranch) :
    (selectWait s pe br).errSlot = s.errSlot := by
  cases br <;> rfl

/-- `runStore` never touches the task context. -/
theorem runStore_tc (s : TaskState) (out : EpOutcome) (hasRI : Bool) :
    (runStore s out hasRI).tc = s.tc := by
  cases out with
  | ret e =>
    by_cases h : e = none <;> simp [runStore, h]
  | panics v => rfl

/-- After `Run` on a fresh task, the recorded context error is the
`errTaskDone` sentinel. -/
theorem runTask_fresh_tc_err (parentDl : Option Int) (now timeout : Int)
    (out : EpOutcome) (hasRI : Bool) :
    (runTask (newTask parentDl now timeout) out hasRI).tc.err = some GoErr.taskDone := by
  show (tcCancel (runStore (newTask parentDl now timeout) out hasRI).tc (some .taskDone)).err
      = some GoErr.taskDone
  rw [runStore_tc]
  show (tcCancel (newTaskContext parentDl now timeout) (some .taskDone)).err = some GoErr.taskDone
  rw [tcCancel, if_pos ⟨by simp, newTaskContext_err parentDl now timeout⟩]

/-- Once an error is recorded, every further `Cancel` call is a no-op. -/
theorem runCancels_after_set (l : List (Option GoErr)) (p : TCState) (h : p.err ≠ none) :
    runCancels p l = (p, 0) := by
  induction l with
  | nil => rfl
  | cons e es ih =>
    have hc : ¬ (e ≠ none ∧ p.err = none) := by
      rintro ⟨-, h2⟩; exact h h2
    simp [runCancels, tcCancelCount, if_neg hc, ih]

/-- C4: `newTaskContext` gives the task context an effective deadline that
is the earlier of the parent deadline and `now + timeout` when both exist,
the parent deadline alone when `timeout = 0` (no additional deadline), and
`now + timeout` alone when the parent has none; `Deadline()` returns the
stored deadline with `ok = true` exactly when it is non-zero. -/
theorem newTaskContext_deadline_spec (parentDl : Option Int) (now timeout : Int) :
    (∀ d, parentDl = some d → d ≠ 0 → timeout ≠ 0 →
      (newTaskContext parentDl now timeout).dl = min (now + timeout) d) ∧
    (timeout = 0 → (newTaskContext parentDl now timeout).dl = parentDl.getD 0) ∧
    (parentDl = none → timeout ≠ 0 →
      (newTaskContext parentDl now timeout).dl = now + timeout) ∧
    ((tcDeadline (newTaskContext parentDl now timeout)).2 = true ↔
      (newTaskContext parentDl now timeout).dl ≠ 0) ∧
    (tcDeadline (newTaskContext parentDl now timeout)).1 =
      (newTaskContext parentDl now timeout).dl := by
  refine ⟨?_, ?_, ?_, ?_, rfl⟩
  · rintro d rfl hd ht
    simp only [newTaskContext, if_pos ht]
    split
    · next hc =>
      have hlt : now + timeout < d := hc.resolve_left hd
      exact (min_eq_left hlt.le).symm
    · next hc =>
      push_neg at hc
      exact (min_eq_right hc.2).symm
  · rintro rfl
    cases parentDl <;> simp [newTaskContext]
  · rintro rfl ht
    simp [newTaskContext, if_pos ht]
  · simp [tcDeadline]

/-- C4 witness: concrete instance with a parent deadline of 100, `now = 0`
and `timeout = 30`; the effective deadline is 30 and `Deadline()` reports
it with `ok = true`. -/
theorem newTaskContext_deadline_spec_witness :
    (newTaskContext (some 100) 0 30).dl = min ((0:Int) + 30) 100 ∧
    ((tcDeadline (newTaskContext (some 100) 0 30)).2 = true ↔
      (newTaskContext (some 100) 0 30).dl ≠ 0) := by
  have h := newTaskContext_deadline_spec (some 100) 0 30
  exact ⟨h.1 100 rfl (by decide) (by decide), h.2.2.2.1⟩

/-- C5: starting from a fresh task context, a sequence of `Cancel` calls
records exactly the first non-nil argument, closes the channel exactly once
(iff some non-nil call occurred), and once an error is recorded every later
call changes nothing. -/
theorem cancel_first_non_nil_wins (dl : Int) (l : List (Option GoErr)) :
    (runCancels ⟨dl, false, none⟩ l).1.err = firstSome l ∧
    (runCancels ⟨dl, false, none⟩ l).2 = (if firstSome l = none then 0 else 1) ∧
    ((runCancels ⟨dl, false, none⟩ l).1.chClosed = true ↔ firstSome l ≠ none) ∧
    (∀ p : TCState, p.err ≠ none → runCancels p l = (p, 0)) := by
  refine ⟨?_, ?_, ?_, fun p hp => runCancels_after_set l p hp⟩ <;>
  · induction l with
    | nil => simp [runCancels, firstSome]
    | cons e es ih =>
      cases e with
      | none =>
        simpa [runCancels, tcCancelCount, firstSome] using ih
      | some e0 =>
        have hset : runCancels ⟨dl, true, some e0⟩ es = (⟨dl, true, some e0⟩, 0) :=
          runCancels_after_set es _ (by simp)
        simp [runCancels, tcCancelCount, firstSome, hset]

/-- C5 witness: with calls `[nil, canceled, deadlineExceeded]` the recorded
error is `canceled` and the channel is closed exactly once. -/
theorem cancel_first_non_nil_wins_witness :
    (runCancels ⟨(5:Int), false, none⟩
        [none, some GoErr.canceled, some GoErr.deadlineExceeded]).1.err
      = some GoErr.canceled ∧
    (runCancels ⟨(5:Int), false, none⟩
        [none, some GoErr.canceled, some GoErr.deadlineExceeded]).2 = 1 := by
  have h := cancel_first_non_nil_wins 5 [none, some GoErr.canceled, some GoErr.deadlineExceeded]
  exact ⟨by simpa [firstSome] using h.1, by simpa [firstSome] using h.2.1⟩

/-- C6: `Err()` returns the recorded error when it is a user-visible value
(non-nil and not the `errTaskDone` sentinel) and the parent error
otherwise; after a clean completion (`Run` of an endpoint returning nil on
a fresh task) it equals the parent error, which is nil for a live parent. -/
theorem err_filters_task_done (p : TCState) (pe : Option GoErr)
    (parentDl : Option Int) (now timeout : Int) (hasRI : Bool) :
    (∀ e : GoErr, p.err = some e → e ≠ GoErr.taskDone → tcErr p pe = some e) ∧
    ((p.err = none ∨ p.err = some GoErr.taskDone) → tcErr p pe = pe) ∧
    tcErr (runTask (newTask parentDl now timeout) (.ret none) hasRI).tc pe = pe := by
  refine ⟨?_, ?_, ?_⟩
  · intro e he hne
    have : ¬ (p.err = none ∨ p.err = some GoErr.taskDone) := by
      rintro (h0 | h0) <;> rw [he] at h0
      · exact Option.noConfusion h0
      · exact hne (Option.some_injective _ h0)
    rw [tcErr, if_neg this, he]
  · intro h
    rw [tcErr, if_pos h]
  · rw [tcErr, if_pos (Or.inr (runTask_fresh_tc_err parentDl now timeout (.ret none) hasRI))]

/-- C6 witness: a recorded endpoint error is returned as is; a recorded
`errTaskDone` sentinel is filtered and the parent error surfaces; a clean
run on a fresh task yields the nil parent error. -/
theorem err_filters_task_done_witness :
    tcErr ⟨(3:Int), true, some (GoErr.epErr 4)⟩ none = some (GoErr.epErr 4) ∧
    tcErr ⟨(3:Int), true, some GoErr.taskDone⟩ (some GoErr.canceled) = some GoErr.canceled ∧
    tcErr (runTask (newTask none 0 20) (.ret none) false).tc none = none := by
  refine ⟨?_, ?_, ?_⟩
  · exact (err_filters_task_done ⟨(3:Int), true, some (GoErr.epErr 4)⟩ none none 0 0 false).1
      (GoErr.epErr 4) rfl (by decide)
  · exact (err_filters_task_done ⟨(3:Int), true, some GoErr.taskDone⟩ (some GoErr.canceled)
      none 0 0 false).2.1 (Or.inr rfl)
  · exact (err_filters_task_done ⟨(3:Int), true, none⟩ none none 0 20 false).2.2

/-- C7: a panic in the endpoint is recovered by `Run` and converted to a
non-nil structured error, stored in the error slot already in the state on
which the deferred `Cancel(errTaskDone)` then acts; for an endpoint
panicking with `"testpanic"` (no RPC metadata), `Wait` returns an error
whose message contains `"testpanic"` while the returned context has nil
`Err()`. -/
theorem run_panic_recovered_structured (v : String) (hasRI : Bool)
    (parentDl : Option Int) (now timeout : Int) :
    (runStore (newTask parentDl now timeout) (.panics v) hasRI).errSlot
        = some (some (panicToErr hasRI v)) ∧
    (runTask (newTask parentDl now timeout) (.panics v) hasRI).errSlot
        = some (some (panicToErr hasRI v)) ∧
    (runTask (newTask parentDl now timeout) (.panics v) hasRI).tc.err
        = some GoErr.taskDone ∧
    some (panicToErr hasRI v) ≠ (none : Option GoErr) ∧
    (taskWait (runTask (newTask none 0 20) (.panics "testpanic") false) 1 none .ctxDone).2
        = some (GoErr.panicNoInfoErr "testpanic") ∧
    "testpanic" ∈ errMessageParts (GoErr.panicNoInfoErr "testpanic") ∧
    tcErr (taskWait (runTask (newTask none 0 20) (.panics "testpanic") false) 1 none
        .ctxDone).1.tc none = none := by
  refine ⟨rfl, rfl, runTask_fresh_tc_err parentDl now timeout (.panics v) hasRI,
    by simp, by decide, by decide, by decide⟩

/-- C8: when the endpoint returns a non-nil error and `Run` completes
before the effective deadline and before any parent cancellation (so the
task-done branch of the select fires and the fast path is not taken),
`Wait` returns exactly that error value and the returned context has nil
`Err()`. -/
theorem endpoint_error_propagated_verbatim (en : GoErr) (hasRI : Bool)
    (parentDl : Option Int) (now0 timeout nowW : Int)
    (hdl : (tcDeadline (runTask (newTask parentDl now0 timeout)
        (.ret (some en)) hasRI).tc).2 = true →
      0 ≤ (tcDeadline (runTask (newTask parentDl now0 timeout)
        (.ret (some en)) hasRI).tc).1 - nowW) :
    (taskWait (runTask (newTask parentDl now0 timeout) (.ret (some en)) hasRI)
        nowW none .ctxDone).2 = some en ∧
    tcErr (taskWait (runTask (newTask parentDl now0 timeout) (.ret (some en)) hasRI)
        nowW none .ctxDone).1.tc none = none := by
  have hslot : (runTask (newTask parentDl now0 timeout) (.ret (some en)) hasRI).errSlot
      = some (some en) := by
    simp [runTask, runStore, newTask]
  have herr := runTask_fresh_tc_err parentDl now0 timeout (.ret (some en)) hasRI
  have htail : waitTail (selectWait (runTask (newTask parentDl now0 timeout)
      (.ret (some en)) hasRI) none .ctxDone) none
      = (runTask (newTask parentDl now0 timeout) (.ret (some en)) hasRI, some en) := by
    rw [selectWait, waitTail, hslot]
  by_cases hb : (tcDeadline (runTask (newTask parentDl now0 timeout)
      (.ret (some en)) hasRI).tc).2 = false
  · rw [taskWait, if_pos hb, htail]
    exact ⟨rfl, by rw [tcErr, if_pos (Or.inr herr)]⟩
  · have hb2 : (tcDeadline (runTask (newTask parentDl now0 timeout)
        (.ret (some en)) hasRI).tc).2 = true := by
      revert hb; cases (tcDeadline (runTask (newTask parentDl now0 timeout)
        (.ret (some en)) hasRI).tc).2 <;> simp
    have hge := hdl hb2
    rw [taskWait, if_neg (by simp [hb2]), if_neg (by omega), htail]
    exact ⟨rfl, by rw [tcErr, if_pos (Or.inr herr)]⟩

/-- C8 witness: endpoint error 7 with `timeout = 20`, `Wait` entered at
instant 5 (deadline not yet passed): the error is returned verbatim and
the context error is nil. -/
theorem endpoint_error_propagated_verbatim_witness :
    (taskWait (runTask (newTask none 0 20) (.ret (some (GoErr.epErr 7))) false)
        5 none .ctxDone).2 = some (GoErr.epErr 7) ∧
    tcErr (taskWait (runTask (newTask none 0 20) (.ret (some (GoErr.epErr 7))) false)
        5 none .ctxDone).1.tc none = none := by
  exact endpoint_error_propagated_verbatim (GoErr.epErr 7) false none 0 20 5
    (by intro h; decide)

/-- C10: a fresh task has an empty error slot; `Run` never stores a nil
error value into it (a nil endpoint return leaves it empty), so a loaded
value is never nil and the downcast in `Wait` is safe; on a clean run,
`Wait` (off the fast path, task-done branch, live parent) returns nil. -/
theorem error_slot_never_nil (parentDl : Option Int) (now timeout nowW : Int)
    (out : EpOutcome) (hasRI : Bool) :
    (newTask parentDl now timeout).errSlot = none ∧
    (runTask (newTask parentDl now timeout) out hasRI).errSlot ≠ some none ∧
    (∀ v, (runTask (newTask parentDl now timeout) out hasRI).errSlot = some v → v ≠ none) ∧
    (out = .ret none → (runTask (newTask parentDl now timeout) out hasRI).errSlot = none) ∧
    (out = .ret none →
      ((tcDeadline (runTask (newTask parentDl now timeout) out hasRI).tc).2 = true →
        0 ≤ (tcDeadline (runTask (newTask parentDl now timeout) out hasRI).tc).1 - nowW) →
      (taskWait (runTask (newTask parentDl now timeout) out hasRI) nowW none .ctxDone).2
        = none) := by
  have hne : (runTask (newTask parentDl now timeout) out hasRI).errSlot ≠ some none := by
    cases out with
    | ret e =>
      cases e with
      | none => simp [runTask, runStore, newTask]
      | some e0 => simp [runTask, runStore, newTask]
    | panics v => simp [runTask, runStore, newTask]
  refine ⟨rfl, hne, ?_, ?_, ?_⟩
  · intro v hv
    intro hvn
    exact hne (by rw [hv, hvn])
  · rintro rfl
    simp [runTask, runStore, newTask]
  · rintro rfl hdl
    have hslot : (runTask (newTask parentDl now timeout) (.ret none) hasRI).errSlot
        = none := by simp [runTask, runStore, newTask]
    have herr := runTask_fresh_tc_err parentDl now timeout (.ret none) hasRI
    have htail : waitTail (selectWait (runTask (newTask parentDl now timeout)
        (.ret none) hasRI) none .ctxDone) none
        = (runTask (newTask parentDl now timeout) (.ret none) hasRI,
          tcErr (runTask (newTask parentDl now timeout) (.ret none) hasRI).tc none) := by
      rw [selectWait, waitTail, hslot]
    by_cases hb : (tcDeadline (runTask (newTask parentDl now timeout)
        (.ret none) hasRI).tc).2 = false
    · rw [taskWait, if_pos hb, htail, tcErr, if_pos (Or.inr herr)]
    · have hb2 : (tcDeadline (runTask (newTask parentDl now timeout)
          (.ret none) hasRI).tc).2 = true := by
        revert hb; cases (tcDeadline (runTask (newTask parentDl now timeout)
          (.ret none) hasRI).tc).2 <;> simp
      have hge := hdl hb2
      rw [taskWait, if_neg (by simp [hb2]), if_neg (by omega), htail, tcErr,
        if_pos (Or.inr herr)]

/-- C10 witness: a nil endpoint return on a fresh task leaves the slot
empty and `Wait` at instant 5 (deadline 20 not passed) returns nil. -/
theorem error_slot_never_nil_witness :
    (runTask (newTask none 0 20) (.ret none) false).errSlot = none ∧
    (taskWait (runTask (newTask none 0 20) (.ret none) false) 5 none .ctxDone).2 = none := by
  have h := error_slot_never_nil none 0 20 5 (.ret none) false
  exact ⟨h.2.2.2.1 rfl, h.2.2.2.2 rfl (by intro h2; decide)⟩

/-- The second component of the common `Wait` tail: the loaded slot value,
or the filtered context error when the slot is empty. -/
theorem waitTail_snd (s : TaskState) (pe : Option GoErr) :
    (waitTail s pe).2 = (match s.errSlot with
      | some v => v
      | none => tcErr s.tc pe) := by
  cases h : s.errSlot <;> simp [waitTail, h]

/-- C1 counterexample: `Run` has completed with endpoint error 0 (slot
non-empty), the effective deadline 5 has passed when `Wait` enters at
instant 10, and `Wait` returns nil instead of the slot value — so `Wait`
does not inspect the error slot first on this return path. -/
theorem wait_expired_entry_ignores_error_slot :
    (runTask (newTask none 0 5) (.ret (some (GoErr.epErr 0))) false).errSlot
        = some (some (GoErr.epErr 0)) ∧
    (tcDeadline (runTask (newTask none 0 5) (.ret (some (GoErr.epErr 0))) false).tc).1
        - 10 < 0 ∧
    (taskWait (runTask (newTask none 0 5) (.ret (some (GoErr.epErr 0))) false)
        10 none .ctxDone).2 = none := by decide

/-- C1 amended: on the select return paths `Wait` inspects the error slot
first and falls back to the filtered context error, but on the fast path
taken when the effective deadline has already passed on entry it returns
the filtered context error after `Cancel(DeadlineExceeded)` without
consulting the slot — the returned error is exactly `waitErrSpec`. -/
theorem wait_error_selection_spec (s : TaskState) (now : Int) (pe : Option GoErr)
    (br : WaitBranch) :
    (taskWait s now pe br).2 = waitErrSpec s now pe br := by
  have hsel : (selectWait s pe br).errSlot = s.errSlot := selectWait_errSlot s pe br
  by_cases hb : (tcDeadline s.tc).2 = false
  · rw [taskWait, if_pos hb, waitErrSpec, if_neg (by rw [hb]; simp), waitTail_snd, hsel]
  · have hb2 : (tcDeadline s.tc).2 = true := by
      revert hb; cases (tcDeadline s.tc).2 <;> simp
    by_cases hlt : (tcDeadline s.tc).1 - now < 0
    · rw [taskWait, if_neg (by simp [hb2]), if_pos hlt, waitErrSpec, if_pos ⟨hb2, hlt⟩]
    · rw [taskWait, if_neg (by simp [hb2]), if_neg hlt, waitErrSpec,
        if_neg (by rintro ⟨-, h2⟩; exact hlt h2), waitTail_snd, hsel]

/-- C3 counterexample: a task whose `Run` already completed cleanly and
whose deadline 5 has passed when `Wait` enters at instant 10: `Wait`
returns nil, not the deadline-exceeded error. -/
theorem wait_expired_after_run_returns_nil :
    (tcDeadline (runTask (newTask none 0 5) (.ret none) false).tc).2 = true ∧
    (tcDeadline (runTask (newTask none 0 5) (.ret none) false).tc).1 - 10 < 0 ∧
    (taskWait (runTask (newTask none 0 5) (.ret none) false) 10 none .ctxDone).2 = none ∧
    (taskWait (runTask (newTask none 0 5) (.ret none) false) 10 none .ctxDone).2
        ≠ some GoErr.deadlineExceeded := by decide

/-- C3 amended: when the effective deadline has already passed on entry to
`Wait` and no error has been recorded in the task context yet (in
particular `Run` has not completed), `Wait` returns the deadline-exceeded
error immediately, recording it in the context. -/
theorem wait_expired_entry_deadline_exceeded (s : TaskState) (now : Int)
    (pe : Option GoErr) (br : WaitBranch)
    (hdl : (tcDeadline s.tc).2 = true) (hlt : (tcDeadline s.tc).1 - now < 0)
    (herr : s.tc.err = none) :
    (taskWait s now pe br).2 = some GoErr.deadlineExceeded ∧
    (taskWait s now pe br).1.tc.err = some GoErr.deadlineExceeded := by
  have hcancel : tcCancel s.tc (some GoErr.deadlineExceeded)
      = { s.tc with err := some GoErr.deadlineExceeded, chClosed := true } := by
    rw [tcCancel, if_pos ⟨by simp, herr⟩]
  rw [taskWait, if_neg (by simp [hdl]), if_pos hlt]
  constructor
  · show tcErr (tcCancel s.tc (some .deadlineExceeded)) pe = some GoErr.deadlineExceeded
    rw [hcancel, tcErr, if_neg (by simp)]
  · show (tcCancel s.tc (some .deadlineExceeded)).err = some GoErr.deadlineExceeded
    rw [hcancel]

/-- C3 amended witness: fresh context with deadline 5, `Wait` at instant
10 returns the deadline-exceeded error. -/
theorem wait_expired_entry_deadline_exceeded_witness :
    (taskWait ⟨⟨5, false, none⟩, none⟩ 10 none .ctxDone).2
        = some GoErr.deadlineExceeded := by
  exact (wait_expired_entry_deadline_exceeded ⟨⟨5, false, none⟩, none⟩ 10 none .ctxDone
    (by decide) (by decide) rfl).1

/-- C2 counterexample: pool with `maxIdle = 1` and worker count 0 (strictly
below `maxIdle`): a submission that misses the hand-off does not create a
worker — it runs detached. -/
theorem createWorker_maxIdle_one_no_spawn :
    (0:Int) < 1 ∧
    (createWorker ⟨0, 1⟩).2.1 = false ∧
    (runTaskDispatch ⟨0, 1⟩ false).2 = Dispatch.detached := by decide

/-- C2 amended: a submission that misses the hand-off creates a worker iff
the incremented count stays strictly below `maxIdle` (so the resident
ceiling is `maxIdle - 1`); with `maxIdle = 1` no resident worker is ever
created and every such submission runs on a detached goroutine, leaving
the worker count unchanged. -/
theorem runTask_dispatch_spawn_iff (p : PoolState) (h : 0 ≤ p.size) :
    ((runTaskDispatch p false).2 = Dispatch.workerSpawned ↔ p.size + 1 < p.maxIdle) ∧
    (p.maxIdle = 1 → (runTaskDispatch p false).2 = Dispatch.detached ∧
      (runTaskDispatch p false).1.size = p.size) := by
  constructor
  · by_cases hc : p.size + 1 < p.maxIdle
    · simp [runTaskDispatch, createWorker, hc]
    · simp [runTaskDispatch, createWorker, hc]
  · intro h1
    have hc : ¬ p.size + 1 < p.maxIdle := by omega
    simp [runTaskDispatch, createWorker, hc]

/-- C2 amended witness: with `maxIdle = 3` and count 0 a worker is
spawned; with `maxIdle = 1` and count 0 the submission runs detached. -/
theorem runTask_dispatch_spawn_iff_witness :
    (runTaskDispatch ⟨0, 3⟩ false).2 = Dispatch.workerSpawned ∧
    (runTaskDispatch ⟨0, 1⟩ false).2 = Dispatch.detached := by
  refine ⟨((runTask_dispatch_spawn_iff ⟨0, 3⟩ (by decide)).1).mpr (by decide),
    ((runTask_dispatch_spawn_iff ⟨0, 1⟩ (by decide)).2 rfl).1⟩

/-- C9: `createWorker` increments the counter and keeps the slot iff the
incremented value is below `maxIdle` (decrementing back otherwise), starts
the reaper ticker exactly when it keeps the slot and the incremented value
is 1, and does so before spawning the worker (event order
`incSize, startTicker, spawnWorker`). -/
theorem createWorker_algorithm (p : PoolState) :
    ((createWorker p).2.1 = true ↔ p.size + 1 < p.maxIdle) ∧
    (createWorker p).1.size = (if p.size + 1 < p.maxIdle then p.size + 1 else p.size) ∧
    (PoolEvent.startTicker ∈ (createWorker p).2.2 ↔
      (p.size + 1 < p.maxIdle ∧ p.size + 1 = 1)) ∧
    (p.size + 1 < p.maxIdle → p.size + 1 = 1 →
      (createWorker p).2.2
        = [PoolEvent.incSize, PoolEvent.startTicker, PoolEvent.spawnWorker]) ∧
    (p.size + 1 < p.maxIdle → p.size + 1 ≠ 1 →
      (createWorker p).2.2 = [PoolEvent.incSize, PoolEvent.spawnWorker]) ∧
    (¬ p.size + 1 < p.maxIdle →
      (createWorker p).2.2 = [PoolEvent.incSize, PoolEvent.decSize] ∧
      (createWorker p).1 = p) := by
  by_cases hc : p.size + 1 < p.maxIdle
  · by_cases h1 : p.size + 1 = 1
    · have hc1 : (1:Int) < p.maxIdle := h1 ▸ hc
      simp [createWorker, hc, h1, hc1, hc1.not_le]
    · simp [createWorker, hc, h1]
  · simp [createWorker, hc]

/-- C9 witness: empty pool with `maxIdle = 3`: the slot is kept and the
events are increment, ticker start, then worker spawn; full pool
(count 2, `maxIdle = 3`): increment then decrement, count restored. -/
theorem createWorker_algorithm_witness :
    (createWorker ⟨0, 3⟩).2.2
        = [PoolEvent.incSize, PoolEvent.startTicker, PoolEvent.spawnWorker] ∧
    (createWorker ⟨2, 3⟩).2.2 = [PoolEvent.incSize, PoolEvent.decSize] := by
  refine ⟨(createWorker_algorithm ⟨0, 3⟩).2.2.2.1 (by decide) (by decide),
    ((createWorker_algorithm ⟨2, 3⟩).2.2.2.2.2 (by decide)).1⟩

end WPool
